import Mathlib

/-!
# Verification of the tiff2 directory/entry decoder and tag-value converter

Shallow embedding of the Rust sources of `tiff2`:
`src/structs/entry.rs` (entry decoder `IfdEntry::from_reader`, the
`BufferedEntry` conversion matrix, `Value` round-trip conversions),
`src/structs/ifd.rs` (`Ifd::insert_tag_data_from_buffer`),
`src/structs/image.rs` (`MaybePartial::get_u64`),
`src/util.rs` (`fix_endianness`) and `src/decoder/reader.rs` (`EndianReader`).

Modelling conventions:
* Machine integers are `Nat` / `Int`; byte buffers are `List Nat` with each
  byte below 256 (stated as a hypothesis where a claim needs it).
* The host ("native endian") is modelled as little-endian, the usual target
  of the crate's own test suite; `to_ne_bytes` / `from_ne_bytes` /
  `bytemuck::cast` therefore read and write little-endian bytes.
* Fallible Rust code returning `TiffResult` becomes `Except TiffError`.
  Code that can panic (slice indexing / `[..n]` slicing on short data) is
  wrapped in `Option`, where `none` models the panic.
* `f32` / `f64` values never undergo arithmetic in the modelled code; they
  are carried as their raw bit patterns (a `Nat`).
-/

set_option maxRecDepth 10000

deriving instance DecidableEq for Except

namespace Tiff2

/-- Byte order of a TIFF file (`ByteOrder` in `lib.rs`). -/
inductive ByteOrder where
  | LittleEndian
  | BigEndian
deriving DecidableEq, Repr

/-- Modelled from the spec: the TagType registry (`src/structs/tags.rs` is not
present under `src/`; only its callers and tests are). The closed set of TIFF
field types, §3 of the spec; the numeric codes are the standard TIFF/BigTIFF
codes, matching every byte-level test in `entry.rs` and `ifd.rs` (1=BYTE,
2=ASCII, 3=SHORT, 4=LONG, 5=RATIONAL, 6=SBYTE, 7=UNDEFINED, 8=SSHORT,
9=SLONG, 10=SRATIONAL, 11=FLOAT, 12=DOUBLE, 13=IFD, 16=LONG8, 17=SLONG8,
18=IFD8). -/
inductive TagType where
  | BYTE
  | ASCII
  | SHORT
  | LONG
  | RATIONAL
  | SBYTE
  | UNDEFINED
  | SSHORT
  | SLONG
  | SRATIONAL
  | FLOAT
  | DOUBLE
  | IFD
  | LONG8
  | SLONG8
  | IFD8
deriving DecidableEq, Repr

/-- Modelled from the spec: `TagType::from_u16` of the missing registry —
"pure lookup from a 16-bit type code to a TagType (or an unknown-type
error)" (§4.2), with the standard codes. -/
def TagType.from_u16 : Nat → Option TagType
  | 1 => some .BYTE
  | 2 => some .ASCII
  | 3 => some .SHORT
  | 4 => some .LONG
  | 5 => some .RATIONAL
  | 6 => some .SBYTE
  | 7 => some .UNDEFINED
  | 8 => some .SSHORT
  | 9 => some .SLONG
  | 10 => some .SRATIONAL
  | 11 => some .FLOAT
  | 12 => some .DOUBLE
  | 13 => some .IFD
  | 16 => some .LONG8
  | 17 => some .SLONG8
  | 18 => some .IFD8
  | _ => none

/-- Modelled from the spec: `TagType::size` of the missing registry — the
fixed byte width of one element (§3, §4.2). The widths are pinned down by the
`test_into_wrongsize_*` tests in `entry.rs`, which pair each type with the
integer width it must match. -/
def TagType.size : TagType → Nat
  | .BYTE => 1
  | .ASCII => 1
  | .SHORT => 2
  | .LONG => 4
  | .RATIONAL => 8
  | .SBYTE => 1
  | .UNDEFINED => 1
  | .SSHORT => 2
  | .SLONG => 4
  | .SRATIONAL => 8
  | .FLOAT => 4
  | .DOUBLE => 8
  | .IFD => 4
  | .LONG8 => 8
  | .SLONG8 => 8
  | .IFD8 => 8

/-- Modelled from the spec: `TagType::primitive_size` of the missing
registry — the width of the underlying primitive, which differs from `size`
only for the rational types (two 4-byte halves each). Used by
`IfdEntry::from_reader` to drive `fix_endianness`. -/
def TagType.primitive_size : TagType → Nat
  | .RATIONAL => 4
  | .SRATIONAL => 4
  | t => t.size

/-- `BufferedEntry` (`entry.rs`): an entry whose data is buffered in native
byte order. -/
structure BufferedEntry where
  tag_type : TagType
  count : Nat
  data : List Nat
deriving DecidableEq, Repr

/-- `IfdEntry` (`entry.rs`): either a deferred offset descriptor or a
buffered value. -/
inductive IfdEntry where
  | Offset (tag_type : TagType) (count : Nat) (offset : Nat)
  | Value (entry : BufferedEntry)
deriving DecidableEq, Repr

/-- The variants of `TiffFormatError` (`error.rs`) reachable in the modelled
code. -/
inductive TiffFormatError where
  | InvalidTagValueType (code : Nat)
  | InconsistentSizesEncountered (val : BufferedEntry)
  | InvalidTag
  | UnsignedIntegerExpected (val : BufferedEntry)
  | SignedIntegerExpected (val : BufferedEntry)
  | FloatExpected (val : BufferedEntry)
  | AsciiExpected (val : BufferedEntry)
deriving DecidableEq, Repr

/-- The variants of `UsageError` (`error.rs`) reachable in the modelled
code. -/
inductive UsageError where
  | IfdReadIntoEntry
  | DuplicateTagData
deriving DecidableEq, Repr

/-- `TiffError` (`error.rs`), restricted to the variants reachable in the
modelled code. `IoError` stands for any short-read I/O failure. -/
inductive TiffError where
  | FormatError (err : TiffFormatError)
  | IoError
  | LimitsExceeded
  | IntSizeError
  | UsageError (err : UsageError)
deriving DecidableEq, Repr

-- ---------------------------------------------------------------------------
-- Byte-level primitives (EndianReader, util.rs)
-- ---------------------------------------------------------------------------

/-- Little-endian interpretation of a byte list (`uN::from_le_bytes`, and
`from_ne_bytes` / `bytemuck::cast` on the little-endian host). -/
def fromLeBytes : List Nat → Nat
  | [] => 0
  | b :: rest => b + 256 * fromLeBytes rest

/-- Big-endian interpretation of a byte list (`uN::from_be_bytes`). -/
def fromBeBytes (l : List Nat) : Nat :=
  fromLeBytes l.reverse

/-- `n.to_le_bytes()` for a `w`-byte integer (and `to_ne_bytes` on the
little-endian host). -/
def natToLeBytes : Nat → Nat → List Nat
  | 0, _ => []
  | w + 1, n => n % 256 :: natToLeBytes w (n / 256)

/-- `i.to_ne_bytes()` for a `w`-byte signed integer on the little-endian
host: two's complement encoding. -/
def intToLeBytes (w : Nat) (i : Int) : List Nat :=
  natToLeBytes w (i % (2 ^ (8 * w) : Int)).toNat

/-- Two's complement reading of a `bits`-wide unsigned value
(`bytemuck::cast` to the signed type of the same width). -/
def toSigned (bits : Nat) (v : Nat) : Int :=
  if v < 2 ^ (bits - 1) then (v : Int) else (v : Int) - 2 ^ bits

/-- `Read::read_exact` on an in-memory stream: take exactly `n` bytes or
fail with an I/O error. -/
def readExactN (n : Nat) (s : List Nat) : Except TiffError (List Nat × List Nat) :=
  if n ≤ s.length then .ok (s.take n, s.drop n) else .error .IoError

/-- `EndianReader::read_u16/u32/u64` (`reader.rs`): read a `w`-byte unsigned
integer respecting the byte order. -/
def readUInt (w : Nat) (bo : ByteOrder) (s : List Nat) :
    Except TiffError (Nat × List Nat) :=
  match readExactN w s with
  | .error e => .error e
  | .ok (taken, rest) =>
    match bo with
    | .LittleEndian => .ok (fromLeBytes taken, rest)
    | .BigEndian => .ok (fromBeBytes taken, rest)

/-- Structural engine for `chunks_exact`: the fuel (initially the list
length) strictly exceeds the number of chunks, so it never runs out. -/
def exactChunksFuel : Nat → Nat → List Nat → List (List Nat)
  | 0, _, _ => []
  | fuel + 1, w, l =>
    if w = 0 ∨ l.length < w then []
    else l.take w :: exactChunksFuel fuel w (l.drop w)

/-- The complete `w`-byte chunks of a list (`chunks_exact`): the trailing
remainder shorter than `w` is dropped. -/
def exactChunks (w : Nat) (l : List Nat) : List (List Nat) :=
  exactChunksFuel l.length w l

/-- `chunks_exact_mut(w)` + per-chunk byte swap: reverse every complete
`w`-byte chunk, leaving the (shorter) remainder untouched. -/
def swapChunks (w : Nat) (l : List Nat) : List Nat :=
  ((exactChunks w l).map List.reverse).flatten ++ l.drop (w * (l.length / w))

/-- `fix_endianness` (`util.rs`) on the little-endian host: for little-endian
input the per-chunk `from_le_bytes` → `to_ne_bytes` is the identity; for
big-endian input every complete primitive-width chunk is byte-swapped.
`bit_depth` selects the chunk width exactly as the Rust `match` does. -/
def fix_endianness (buf : List Nat) (byte_order : ByteOrder) (bit_depth : Nat) : List Nat :=
  match byte_order with
  | .LittleEndian => buf
  | .BigEndian =>
    if bit_depth ≤ 8 then buf
    else if bit_depth ≤ 16 then swapChunks 2 buf
    else if bit_depth ≤ 32 then swapChunks 4 buf
    else swapChunks 8 buf

-- ---------------------------------------------------------------------------
-- IfdEntry::from_reader (entry.rs, lines 63-100)
-- ---------------------------------------------------------------------------

/-- The first step of `IfdEntry::from_reader`: `r.read_u16()` followed by
`TagType::from_u16(..).ok_or(InvalidTagValueType)`. -/
def read_tag_type (bo : ByteOrder) (s : List Nat) :
    Except TiffError (TagType × List Nat) :=
  match readUInt 2 bo s with
  | .error e => .error e
  | .ok (t_u16, rest) =>
    match TagType.from_u16 t_u16 with
    | some t => .ok (t, rest)
    | none => .error (.FormatError (.InvalidTagValueType t_u16))

/-- The count field of `IfdEntry::from_reader`: `read_u64` in BigTIFF,
`read_u32` (widened) in classic format. -/
def read_count (bo : ByteOrder) (bigtiff : Bool) (s : List Nat) :
    Except TiffError (Nat × List Nat) :=
  if bigtiff then readUInt 8 bo s else readUInt 4 bo s

/-- The offset field of `IfdEntry::from_reader`: `read_u64` in BigTIFF,
`read_u32` (widened) in classic format. -/
def read_offset_field (bo : ByteOrder) (bigtiff : Bool) (s : List Nat) :
    Except TiffError (Nat × List Nat) :=
  if bigtiff then readUInt 8 bo s else readUInt 4 bo s

/-- `IfdEntry::from_reader` (`entry.rs` lines 63-100). The reader starts at
the type field. `count.checked_mul(size)` overflowing `u64` yields
`LimitsExceeded`; an entry whose byte length exceeds the inline capacity
(4 bytes classic, 8 bytes BigTIFF), or whose type is `IFD`/`IFD8`, keeps an
offset; otherwise the raw bytes are read and normalised to native order. -/
def IfdEntry.from_reader (bo : ByteOrder) (bigtiff : Bool) (s : List Nat) :
    Except TiffError (IfdEntry × List Nat) :=
  match read_tag_type bo s with
  | .error e => .error e
  | .ok (tag_type, s) =>
    match read_count bo bigtiff s with
    | .error e => .error e
    | .ok (count, s) =>
      if 2 ^ 64 ≤ count * tag_type.size then .error .LimitsExceeded
      else
        if (!bigtiff && decide (4 < count * tag_type.size))
            || decide (8 < count * tag_type.size)
            || tag_type == .IFD || tag_type == .IFD8 then
          match read_offset_field bo bigtiff s with
          | .error e => .error e
          | .ok (offset, s) => .ok (.Offset tag_type count offset, s)
        else
          match readExactN (count * tag_type.size) s with
          | .error e => .error e
          | .ok (raw, s) =>
            .ok (.Value ⟨tag_type, count,
              fix_endianness raw bo (8 * tag_type.primitive_size)⟩, s)

-- ---------------------------------------------------------------------------
-- Scalar conversions (entry.rs, lines 154-346)
-- ---------------------------------------------------------------------------

/-- `uT::try_from(narrower)` after a `bytemuck` cast, converted to
`TiffError` via `From<TryFromIntError>`: an unsigned narrowing check against
`2 ^ bits`; failure is `IntSizeError`. -/
def narrowU (bits : Nat) (v : Nat) : Except TiffError Nat :=
  if v < 2 ^ bits then .ok v else .error .IntSizeError

/-- `iT::try_from(wider)` for signed targets: a signed range check; failure
is `IntSizeError`. -/
def narrowI (bits : Nat) (v : Int) : Except TiffError Int :=
  if -(2 ^ (bits - 1) : Int) ≤ v ∧ v < 2 ^ (bits - 1) then .ok v else .error .IntSizeError

/-- `TryFrom<&BufferedEntry> for f32` (`entry.rs`): exact size check, then
only `FLOAT` is accepted; the result is the raw 4-byte bit pattern. -/
def f32_try_from (val : BufferedEntry) : Except TiffError Nat :=
  if val.data.length ≠ val.tag_type.size then
    .error (.FormatError (.InconsistentSizesEncountered val))
  else
    match val.tag_type with
    | .FLOAT => .ok (fromLeBytes val.data)
    | _ => .error (.FormatError (.FloatExpected val))

/-- `f64::from(f32)` on bit patterns: exact IEEE-754 widening. Normal values
rebias the exponent and shift the mantissa; subnormals are renormalised
(`Nat.log2 m` locates the leading bit); infinities and NaNs keep their
payload shifted into the top of the 52-bit mantissa. -/
def f32BitsToF64Bits (b : Nat) : Nat :=
  let s := b / 2 ^ 31 % 2
  let e := b / 2 ^ 23 % 256
  let m := b % 2 ^ 23
  if e = 255 then s * 2 ^ 63 + 2047 * 2 ^ 52 + m * 2 ^ 29
  else if e = 0 then
    if m = 0 then s * 2 ^ 63
    else
      let L := Nat.log2 m
      s * 2 ^ 63 + (874 + L) * 2 ^ 52 + (m - 2 ^ L) * 2 ^ (52 - L)
  else s * 2 ^ 63 + (e + 896) * 2 ^ 52 + m * 2 ^ 29

/-- `TryFrom<&BufferedEntry> for f64` (`entry.rs`): `FLOAT` is widened,
`DOUBLE` is taken verbatim (as bit patterns). -/
def f64_try_from (val : BufferedEntry) : Except TiffError Nat :=
  if val.data.length ≠ val.tag_type.size then
    .error (.FormatError (.InconsistentSizesEncountered val))
  else
    match val.tag_type with
    | .FLOAT => .ok (f32BitsToF64Bits (fromLeBytes val.data))
    | .DOUBLE => .ok (fromLeBytes val.data)
    | _ => .error (.FormatError (.FloatExpected val))

/-- `TryFrom<&BufferedEntry> for u8` (`entry.rs`): exact size check, then
`BYTE` verbatim, `SHORT`/`LONG`/`IFD`/`LONG8`/`IFD8` with a narrowing
check; all other types are `UnsignedIntegerExpected`. -/
def u8_try_from (val : BufferedEntry) : Except TiffError Nat :=
  if val.data.length ≠ val.tag_type.size then
    .error (.FormatError (.InconsistentSizesEncountered val))
  else
    match val.tag_type with
    | .BYTE => .ok (fromLeBytes val.data)
    | .SHORT => narrowU 8 (fromLeBytes val.data)
    | .LONG | .IFD => narrowU 8 (fromLeBytes val.data)
    | .LONG8 | .IFD8 => narrowU 8 (fromLeBytes val.data)
    | _ => .error (.FormatError (.UnsignedIntegerExpected val))

/-- `TryFrom<&BufferedEntry> for u16` (`entry.rs`). -/
def u16_try_from (val : BufferedEntry) : Except TiffError Nat :=
  if val.data.length ≠ val.tag_type.size then
    .error (.FormatError (.InconsistentSizesEncountered val))
  else
    match val.tag_type with
    | .BYTE => .ok (fromLeBytes val.data)
    | .SHORT => .ok (fromLeBytes val.data)
    | .LONG | .IFD => narrowU 16 (fromLeBytes val.data)
    | .LONG8 | .IFD8 => narrowU 16 (fromLeBytes val.data)
    | _ => .error (.FormatError (.UnsignedIntegerExpected val))

/-- `TryFrom<&BufferedEntry> for u32` (`entry.rs`). -/
def u32_try_from (val : BufferedEntry) : Except TiffError Nat :=
  if val.data.length ≠ val.tag_type.size then
    .error (.FormatError (.InconsistentSizesEncountered val))
  else
    match val.tag_type with
    | .BYTE => .ok (fromLeBytes val.data)
    | .SHORT => .ok (fromLeBytes val.data)
    | .LONG | .IFD => .ok (fromLeBytes val.data)
    | .LONG8 | .IFD8 => narrowU 32 (fromLeBytes val.data)
    | _ => .error (.FormatError (.UnsignedIntegerExpected val))

/-- `TryFrom<&BufferedEntry> for u64` (`entry.rs`). -/
def u64_try_from (val : BufferedEntry) : Except TiffError Nat :=
  if val.data.length ≠ val.tag_type.size then
    .error (.FormatError (.InconsistentSizesEncountered val))
  else
    match val.tag_type with
    | .BYTE => .ok (fromLeBytes val.data)
    | .SHORT => .ok (fromLeBytes val.data)
    | .LONG | .IFD => .ok (fromLeBytes val.data)
    | .LONG8 | .IFD8 => .ok (fromLeBytes val.data)
    | _ => .error (.FormatError (.UnsignedIntegerExpected val))

/-- `TryFrom<&BufferedEntry> for i8` (`entry.rs`): exact size check, then
`SBYTE` verbatim, the wider signed types with a narrowing check; all other
types are `SignedIntegerExpected`. -/
def i8_try_from (val : BufferedEntry) : Except TiffError Int :=
  if val.data.length ≠ val.tag_type.size then
    .error (.FormatError (.InconsistentSizesEncountered val))
  else
    match val.tag_type with
    | .SBYTE => .ok (toSigned 8 (fromLeBytes val.data))
    | .SSHORT => narrowI 8 (toSigned 16 (fromLeBytes val.data))
    | .SLONG => narrowI 8 (toSigned 32 (fromLeBytes val.data))
    | .SLONG8 => narrowI 8 (toSigned 64 (fromLeBytes val.data))
    | _ => .error (.FormatError (.SignedIntegerExpected val))

/-- `TryFrom<&BufferedEntry> for i16` (`entry.rs`). -/
def i16_try_from (val : BufferedEntry) : Except TiffError Int :=
  if val.data.length ≠ val.tag_type.size then
    .error (.FormatError (.InconsistentSizesEncountered val))
  else
    match val.tag_type with
    | .SBYTE => .ok (toSigned 8 (fromLeBytes val.data))
    | .SSHORT => .ok (toSigned 16 (fromLeBytes val.data))
    | .SLONG => narrowI 16 (toSigned 32 (fromLeBytes val.data))
    | .SLONG8 => narrowI 16 (toSigned 64 (fromLeBytes val.data))
    | _ => .error (.FormatError (.SignedIntegerExpected val))

/-- `TryFrom<&BufferedEntry> for i32` (`entry.rs`). -/
def i32_try_from (val : BufferedEntry) : Except TiffError Int :=
  if val.data.length ≠ val.tag_type.size then
    .error (.FormatError (.InconsistentSizesEncountered val))
  else
    match val.tag_type with
    | .SBYTE => .ok (toSigned 8 (fromLeBytes val.data))
    | .SSHORT => .ok (toSigned 16 (fromLeBytes val.data))
    | .SLONG => .ok (toSigned 32 (fromLeBytes val.data))
    | .SLONG8 => narrowI 32 (toSigned 64 (fromLeBytes val.data))
    | _ => .error (.FormatError (.SignedIntegerExpected val))

/-- `TryFrom<&BufferedEntry> for i64` (`entry.rs`). -/
def i64_try_from (val : BufferedEntry) : Except TiffError Int :=
  if val.data.length ≠ val.tag_type.size then
    .error (.FormatError (.InconsistentSizesEncountered val))
  else
    match val.tag_type with
    | .SBYTE => .ok (toSigned 8 (fromLeBytes val.data))
    | .SSHORT => .ok (toSigned 16 (fromLeBytes val.data))
    | .SLONG => .ok (toSigned 32 (fromLeBytes val.data))
    | .SLONG8 => .ok (toSigned 64 (fromLeBytes val.data))
    | _ => .error (.FormatError (.SignedIntegerExpected val))

-- ---------------------------------------------------------------------------
-- Slice conversions (entry.rs, entry_tryfrom_slice! at lines 382-413)
-- ---------------------------------------------------------------------------

/-- Body of the `entry_tryfrom_slice!` macro (`entry.rs`): the data length
must equal `size * count`, the tag type must be in the accepted set `ts`
(the target type's canonical TIFF types), and the bytes are reinterpreted
in place (`bytemuck::cast_slice`) as `w`-byte unsigned elements; any
mismatch is `InconsistentSizesEncountered`. -/
def slice_try_from (ts : List TagType) (w : Nat) (val : BufferedEntry) :
    Except TiffError (List Nat) :=
  if val.data.length ≠ val.tag_type.size * val.count then
    .error (.FormatError (.InconsistentSizesEncountered val))
  else if val.tag_type ∈ ts then
    .ok ((exactChunks w val.data).map fromLeBytes)
  else
    .error (.FormatError (.InconsistentSizesEncountered val))

/-- `TryFrom<&BufferedEntry> for &[u8]` (`entry_tryfrom_slice!(u8, BYTE)`). -/
def slice_u8_try_from (val : BufferedEntry) : Except TiffError (List Nat) :=
  slice_try_from [.BYTE] 1 val

/-- `TryFrom<&BufferedEntry> for &[u16]` (`entry_tryfrom_slice!(u16, SHORT)`). -/
def slice_u16_try_from (val : BufferedEntry) : Except TiffError (List Nat) :=
  slice_try_from [.SHORT] 2 val

/-- `TryFrom<&BufferedEntry> for &[u32]`
(`entry_tryfrom_slice!(u32, LONG, IFD)`). -/
def slice_u32_try_from (val : BufferedEntry) : Except TiffError (List Nat) :=
  slice_try_from [.LONG, .IFD] 4 val

/-- `TryFrom<&BufferedEntry> for &[u64]`
(`entry_tryfrom_slice!(u64, LONG8, IFD8)`). -/
def slice_u64_try_from (val : BufferedEntry) : Except TiffError (List Nat) :=
  slice_try_from [.LONG8, .IFD8] 8 val

-- ---------------------------------------------------------------------------
-- BufferedEntry::get_u64 (entry.rs, lines 127-139)
-- ---------------------------------------------------------------------------

/-- `BufferedEntry::get_u64` (`entry.rs`): bounds check against `count`
first (`LimitsExceeded`), then dispatch on the tag type through the slice
conversions and index. `none` models the Rust indexing panic, reachable only
when the slice is shorter than `count`. -/
def BufferedEntry.get_u64 (e : BufferedEntry) (index : Nat) :
    Option (Except TiffError Nat) :=
  if e.count ≤ index then some (.error .LimitsExceeded)
  else
    match e.tag_type with
    | .BYTE =>
      match slice_u8_try_from e with
      | .error err => some (.error err)
      | .ok l => (l[index]?).map .ok
    | .SHORT =>
      match slice_u16_try_from e with
      | .error err => some (.error err)
      | .ok l => (l[index]?).map .ok
    | .LONG | .IFD =>
      match slice_u32_try_from e with
      | .error err => some (.error err)
      | .ok l => (l[index]?).map .ok
    | .LONG8 | .IFD8 =>
      match slice_u64_try_from e with
      | .error err => some (.error err)
      | .ok l => (l[index]?).map .ok
    | _ => some (.error (.FormatError (.UnsignedIntegerExpected e)))

-- ---------------------------------------------------------------------------
-- Vector and string conversions (entry.rs, lines 419-474)
-- ---------------------------------------------------------------------------

/-- `TryFrom<&BufferedEntry> for Vec<f64>` (`entry.rs`): `DOUBLE` verbatim,
`FLOAT` widened element-wise; anything else is `FloatExpected`. Elements are
bit patterns. -/
def vec_f64_try_from (val : BufferedEntry) : Except TiffError (List Nat) :=
  if val.data.length ≠ val.tag_type.size * val.count then
    .error (.FormatError (.InconsistentSizesEncountered val))
  else
    match val.tag_type with
    | .DOUBLE => .ok ((exactChunks 8 val.data).map fromLeBytes)
    | .FLOAT => .ok ((exactChunks 4 val.data).map (fun c => f32BitsToF64Bits (fromLeBytes c)))
    | _ => .error (.FormatError (.FloatExpected val))

/-- `TryFrom<&BufferedEntry> for Vec<f32>` (`entry.rs`): only `FLOAT`. -/
def vec_f32_try_from (val : BufferedEntry) : Except TiffError (List Nat) :=
  if val.data.length ≠ val.tag_type.size * val.count then
    .error (.FormatError (.InconsistentSizesEncountered val))
  else
    match val.tag_type with
    | .FLOAT => .ok ((exactChunks 4 val.data).map fromLeBytes)
    | _ => .error (.FormatError (.FloatExpected val))

/-- `<&[u8]>::is_ascii`: every byte below 128. -/
def isAsciiBytes (l : List Nat) : Bool :=
  l.all (fun b => b < 128)

/-- `ends_with(&[0])`: the last byte exists and is NUL. -/
def endsWithNul (l : List Nat) : Bool :=
  l.getLast? == some 0

/-- `str::trim_matches(char::from(0))`: strip NUL bytes from both ends
(the data is ASCII, so chars coincide with bytes). -/
def trimNulBytes (l : List Nat) : List Nat :=
  ((l.dropWhile (fun b => b == 0)).reverse.dropWhile (fun b => b == 0)).reverse

/-- `TryFrom<&BufferedEntry> for &str` (`entry.rs` lines 454-474): the data
length must equal `count`; only `ASCII`, `BYTE` and `UNDEFINED` entries are
eligible (`AsciiExpected` otherwise); the bytes must be 7-bit ASCII and
NUL-terminated (`InvalidTag` otherwise); NULs are trimmed from both ends.
The result is the string's bytes. -/
def str_try_from (val : BufferedEntry) : Except TiffError (List Nat) :=
  if val.data.length ≠ val.count then
    .error (.FormatError (.InconsistentSizesEncountered val))
  else
    match val.tag_type with
    | .ASCII | .BYTE | .UNDEFINED =>
      if isAsciiBytes val.data && endsWithNul val.data then
        .ok (trimNulBytes val.data)
      else
        .error (.FormatError .InvalidTag)
    | _ => .error (.FormatError (.AsciiExpected val))

-- ---------------------------------------------------------------------------
-- Value (value.rs) and the Value <-> BufferedEntry conversions (entry.rs)
-- ---------------------------------------------------------------------------

/-- `Value` (`value.rs`): the tagged union of concrete decoded forms.
Unsigned payloads are `Nat`, signed ones `Int`, floats their bit patterns,
and `Ascii` the string's bytes. -/
inductive Value where
  | Byte (v : Nat)
  | SignedByte (v : Int)
  | Undefined (v : Nat)
  | Short (v : Nat)
  | SShort (v : Int)
  | Long (v : Nat)
  | SLong (v : Int)
  | Long8 (v : Nat)
  | SLong8 (v : Int)
  | Float (bits : Nat)
  | Double (bits : Nat)
  | Rational (num denom : Nat)
  | SRational (num denom : Int)
  | Ascii (s : List Nat)
  | List (vs : List Value)
  | Ifd (v : Nat)
  | Ifd8 (v : Nat)
deriving Repr

/-- `from_single` (`entry.rs` lines 504-539): decode one element of the
given type from the start of `data`. `none` models the Rust panics from
indexing/slicing data shorter than the element (`data[0]`, `data[..n]`);
`IFD`/`IFD8` fail with the dedicated usage error before touching the data;
`ASCII` only accepts an immediate NUL (the empty string). -/
def from_single (tag_type : TagType) (data : List Nat) :
    Option (Except TiffError Value) :=
  match tag_type with
  | .BYTE => (data[0]?).map (fun b => .ok (.Byte b))
  | .SBYTE => (data[0]?).map (fun b => .ok (.SignedByte (toSigned 8 b)))
  | .UNDEFINED => (data[0]?).map (fun b => .ok (.Undefined b))
  | .SHORT =>
    if data.length < 2 then none
    else some (.ok (.Short (fromLeBytes (data.take 2))))
  | .SSHORT =>
    if data.length < 2 then none
    else some (.ok (.SShort (toSigned 16 (fromLeBytes (data.take 2)))))
  | .LONG =>
    if data.length < 4 then none
    else some (.ok (.Long (fromLeBytes (data.take 4))))
  | .SLONG =>
    if data.length < 4 then none
    else some (.ok (.SLong (toSigned 32 (fromLeBytes (data.take 4)))))
  | .LONG8 =>
    if data.length < 8 then none
    else some (.ok (.Long8 (fromLeBytes (data.take 8))))
  | .SLONG8 =>
    if data.length < 8 then none
    else some (.ok (.SLong8 (toSigned 64 (fromLeBytes (data.take 8)))))
  | .RATIONAL =>
    if data.length < 8 then none
    else some (.ok (.Rational (fromLeBytes (data.take 4))
      (fromLeBytes ((data.drop 4).take 4))))
  | .SRATIONAL =>
    if data.length < 8 then none
    else some (.ok (.SRational (toSigned 32 (fromLeBytes (data.take 4)))
      (toSigned 32 (fromLeBytes ((data.drop 4).take 4)))))
  | .FLOAT =>
    if data.length < 4 then none
    else some (.ok (.Float (fromLeBytes (data.take 4))))
  | .DOUBLE =>
    if data.length < 8 then none
    else some (.ok (.Double (fromLeBytes (data.take 8))))
  | .ASCII =>
    (data[0]?).map (fun b =>
      if b = 0 then .ok (.Ascii []) else .error (.FormatError .InvalidTag))
  | .IFD | .IFD8 => some (.error (.UsageError .IfdReadIntoEntry))

/-- `chunks_exact(size).map(from_single).collect::<TiffResult<Vec<_>>>()`:
short-circuit at the first error; `none` propagates a panic (unreachable on
full-size chunks). -/
def collectSingles (tag_type : TagType) :
    List (List Nat) → Option (Except TiffError (List Value))
  | [] => some (.ok [])
  | c :: rest =>
    match from_single tag_type c with
    | none => none
    | some (.error e) => some (.error e)
    | some (.ok v) =>
      match collectSingles tag_type rest with
      | none => none
      | some (.error e) => some (.error e)
      | some (.ok vs) => some (.ok (v :: vs))

/-- `TryFrom<BufferedEntry> for Value` (`entry.rs` lines 541-565):
`count == 1` decodes a single element; `count ≠ 1` with `ASCII` decodes one
NUL-terminated string; otherwise the data is decoded element-wise
(`chunks_exact`) into a `List`. -/
def value_try_from (entry : BufferedEntry) : Option (Except TiffError Value) :=
  if entry.count = 1 then
    from_single entry.tag_type entry.data
  else if entry.tag_type = .ASCII then
    some (if isAsciiBytes entry.data && endsWithNul entry.data then
      .ok (.Ascii (trimNulBytes entry.data))
    else
      .error (.FormatError .InvalidTag))
  else
    match collectSingles entry.tag_type (exactChunks entry.tag_type.size entry.data) with
    | none => none
    | some (.error e) => some (.error e)
    | some (.ok vs) => some (.ok (.List vs))

mutual

/-- `TryFrom<Value> for BufferedEntry` (`entry.rs` lines 567-602): encode a
value into its buffered native-order byte form. `none` models the Rust panic
`vec[0]` on an empty `List`. -/
def buffered_entry_try_from : Value → Option (Except TiffError BufferedEntry)
  | .Byte v => some (.ok ⟨.BYTE, 1, natToLeBytes 1 v⟩)
  | .SignedByte v => some (.ok ⟨.SBYTE, 1, intToLeBytes 1 v⟩)
  | .Ascii s => some (.ok ⟨.ASCII, s.length + 1, s ++ [0]⟩)
  | .Undefined v => some (.ok ⟨.UNDEFINED, 1, natToLeBytes 1 v⟩)
  | .Short v => some (.ok ⟨.SHORT, 1, natToLeBytes 2 v⟩)
  | .SShort v => some (.ok ⟨.SSHORT, 1, intToLeBytes 2 v⟩)
  | .Long v => some (.ok ⟨.LONG, 1, natToLeBytes 4 v⟩)
  | .Ifd v => some (.ok ⟨.IFD, 1, natToLeBytes 4 v⟩)
  | .SLong v => some (.ok ⟨.SLONG, 1, intToLeBytes 4 v⟩)
  | .Long8 v => some (.ok ⟨.LONG8, 1, natToLeBytes 8 v⟩)
  | .Ifd8 v => some (.ok ⟨.IFD8, 1, natToLeBytes 8 v⟩)
  | .SLong8 v => some (.ok ⟨.SLONG8, 1, intToLeBytes 8 v⟩)
  | .Float bits => some (.ok ⟨.FLOAT, 1, natToLeBytes 4 bits⟩)
  | .Double bits => some (.ok ⟨.DOUBLE, 1, natToLeBytes 8 bits⟩)
  | .Rational num denom =>
    some (.ok ⟨.RATIONAL, 1, natToLeBytes 4 num ++ natToLeBytes 4 denom⟩)
  | .SRational num denom =>
    some (.ok ⟨.SRATIONAL, 1, intToLeBytes 4 num ++ intToLeBytes 4 denom⟩)
  | .List vs =>
    match vs with
    | [] => none
    | v0 :: rest =>
      match buffered_entry_try_from v0 with
      | none => none
      | some (.error e) => some (.error e)
      | some (.ok buf) => buffered_entry_append buf rest

/-- The fold of the `Value::List` arm of `TryFrom<Value> for BufferedEntry`:
encode each remaining element, require matching tag types (`InvalidTag`
otherwise), and append data and counts. -/
def buffered_entry_append (buf : BufferedEntry) :
    List Value → Option (Except TiffError BufferedEntry)
  | [] => some (.ok buf)
  | v :: rest =>
    match buffered_entry_try_from v with
    | none => none
    | some (.error e) => some (.error e)
    | some (.ok temp) =>
      if temp.tag_type ≠ buf.tag_type then
        some (.error (.FormatError .InvalidTag))
      else
        buffered_entry_append ⟨buf.tag_type, buf.count + temp.count,
          buf.data ++ temp.data⟩ rest

end

-- ---------------------------------------------------------------------------
-- Ifd (ifd.rs)
-- ---------------------------------------------------------------------------

/-- `Ifd` (`ifd.rs`): sub-IFDs plus an ordered tag → entry map, modelled as
an association list keyed by the 16-bit tag id. -/
structure Ifd where
  sub_ifds : List (List (Nat × IfdEntry))
  data : List (Nat × IfdEntry)
deriving DecidableEq, Repr

/-- `BTreeMap::insert` on the tag → entry map: replace the binding if the
key is present (returning the old entry), append it otherwise. -/
def dirInsert : List (Nat × IfdEntry) → Nat → IfdEntry →
    Option IfdEntry × List (Nat × IfdEntry)
  | [], k, v => (none, [(k, v)])
  | (k', v') :: rest, k, v =>
    if k = k' then (some v', (k, v) :: rest)
    else ((dirInsert rest k v).1, (k', v') :: (dirInsert rest k v).2)

/-- `BTreeMap::get` on the tag → entry map. -/
def dirLookup : List (Nat × IfdEntry) → Nat → Option IfdEntry
  | [], _ => none
  | (k', v') :: rest, k => if k = k' then some v' else dirLookup rest k

/-- `Ifd::insert_tag_data_from_buffer` (`ifd.rs` lines 109-115): wrap the
buffered data as `IfdEntry::Value` and insert it unconditionally, returning
the previous entry when the tag was already present. -/
def Ifd.insert_tag_data_from_buffer (ifd : Ifd) (tag : Nat)
    (data : BufferedEntry) : Option IfdEntry × Ifd :=
  ((dirInsert ifd.data tag (.Value data)).1,
    ⟨ifd.sub_ifds, (dirInsert ifd.data tag (.Value data)).2⟩)

-- ---------------------------------------------------------------------------
-- MaybePartial (image.rs, lines 82-124)
-- ---------------------------------------------------------------------------

/-- The `Partial` variant of `MaybePartial` (`image.rs`): base byte offset,
chunk size, the loaded-chunk map and the pending-chunk set (the map of
condition variables, of which only the keys matter to the model). -/
structure PartialMap where
  offset : Nat
  chunk_size : Nat
  data : List (Nat × BufferedEntry)
  pending : List Nat
deriving DecidableEq, Repr

/-- `MaybePartialIndex` (`image.rs`): a decoded element, a fetch descriptor
(`NeedRead`), or a wait handle (`Pending`, the condition variable itself
carrying no data in the model). -/
inductive MaybePartialIndex where
  | Ok (v : Nat)
  | NeedRead (offset : Nat) (count : Nat) (buf : List Nat)
  | Pending
deriving DecidableEq, Repr

/-- `BTreeMap/HashMap::get` on the loaded-chunk map. -/
def chunkLookup : List (Nat × BufferedEntry) → Nat → Option BufferedEntry
  | [], _ => none
  | (k', v') :: rest, k => if k = k' then some v' else chunkLookup rest k

/-- The `Partial` arm of `MaybePartial::get_u64` (`image.rs` lines 108-121):
map the element index to `(index / chunk_size, index % chunk_size)`; a
loaded chunk is decoded in place, a pending chunk yields a wait handle, and
otherwise the chunk is marked pending and a fetch descriptor is returned
carrying the stored base `offset`, a `count` of `chunk_size` and a
`chunk_size`-byte zero buffer. The outer `Option` models the indexing panic
inside `BufferedEntry::get_u64`. -/
def MaybePartial.get_u64_partial (st : PartialMap) (index : Nat) :
    Option (Except TiffError MaybePartialIndex) × PartialMap :=
  let i_chunk := index / st.chunk_size
  let subindex := index % st.chunk_size
  match chunkLookup st.data i_chunk with
  | some entry =>
    match entry.get_u64 subindex with
    | none => (none, st)
    | some (.error e) => (some (.error e), st)
    | some (.ok v) => (some (.ok (.Ok v)), st)
  | none =>
    if i_chunk ∈ st.pending then
      (some (.ok .Pending), st)
    else
      (some (.ok (.NeedRead st.offset st.chunk_size
          (List.replicate st.chunk_size 0))),
        ⟨st.offset, st.chunk_size, st.data, i_chunk :: st.pending⟩)

-- ---------------------------------------------------------------------------
-- Spec-side characterizations (refinement targets, from the spec's words)
-- ---------------------------------------------------------------------------

/-- The spec's unsigned numeric class as realised by the conversion matrix:
the source types accepted by the unsigned scalar conversions. -/
def unsignedSources : List TagType := [.BYTE, .SHORT, .LONG, .IFD, .LONG8, .IFD8]

/-- The spec's signed numeric class: the source types accepted by the signed
scalar conversions. -/
def signedSources : List TagType := [.SBYTE, .SSHORT, .SLONG, .SLONG8]

/-- Spec-side form of the unsigned scalar conversion contract (§4.4 and the
type-safety law of §8): exact size match, a compatible (unsigned) source
class, and a value that fits in the `bits`-wide target; each failure mode
has its specific error. -/
def expectedU (bits : Nat) (e : BufferedEntry) : Except TiffError Nat :=
  if e.data.length ≠ e.tag_type.size then
    .error (.FormatError (.InconsistentSizesEncountered e))
  else if e.tag_type ∈ unsignedSources then
    if fromLeBytes e.data < 2 ^ bits then .ok (fromLeBytes e.data)
    else .error .IntSizeError
  else .error (.FormatError (.UnsignedIntegerExpected e))

/-- Spec-side form of the signed scalar conversion contract: exact size
match, a signed source class, and a two's-complement value that fits in the
`bits`-wide signed target. -/
def expectedI (bits : Nat) (e : BufferedEntry) : Except TiffError Int :=
  if e.data.length ≠ e.tag_type.size then
    .error (.FormatError (.InconsistentSizesEncountered e))
  else if e.tag_type ∈ signedSources then
    if -(2 ^ (bits - 1) : Int) ≤ toSigned (8 * e.tag_type.size) (fromLeBytes e.data)
        ∧ toSigned (8 * e.tag_type.size) (fromLeBytes e.data) < 2 ^ (bits - 1) then
      .ok (toSigned (8 * e.tag_type.size) (fromLeBytes e.data))
    else .error .IntSizeError
  else .error (.FormatError (.SignedIntegerExpected e))

/-- Spec-side form of the `f32` conversion contract: exact size match and a
`FLOAT` source. -/
def expectedF32 (e : BufferedEntry) : Except TiffError Nat :=
  if e.data.length ≠ e.tag_type.size then
    .error (.FormatError (.InconsistentSizesEncountered e))
  else if e.tag_type = .FLOAT then .ok (fromLeBytes e.data)
  else .error (.FormatError (.FloatExpected e))

/-- Spec-side form of the `f64` conversion contract: exact size match and a
float-class source, with upward widening from `FLOAT`. -/
def expectedF64 (e : BufferedEntry) : Except TiffError Nat :=
  if e.data.length ≠ e.tag_type.size then
    .error (.FormatError (.InconsistentSizesEncountered e))
  else if e.tag_type = .FLOAT then .ok (f32BitsToF64Bits (fromLeBytes e.data))
  else if e.tag_type = .DOUBLE then .ok (fromLeBytes e.data)
  else .error (.FormatError (.FloatExpected e))

/-- The `Value`s for which the encode/decode round-trip can hold: the
scalar variants within their machine-integer ranges, excluding the
directory-reference values (whose decode is a usage error), lists, and
strings that are not NUL-free printable ASCII. -/
def scalarRoundTrippable : Value → Prop
  | .Byte v => v < 2 ^ 8
  | .SignedByte v => -(2 ^ 7) ≤ v ∧ v < 2 ^ 7
  | .Undefined v => v < 2 ^ 8
  | .Short v => v < 2 ^ 16
  | .SShort v => -(2 ^ 15) ≤ v ∧ v < 2 ^ 15
  | .Long v => v < 2 ^ 32
  | .SLong v => -(2 ^ 31) ≤ v ∧ v < 2 ^ 31
  | .Long8 v => v < 2 ^ 64
  | .SLong8 v => -(2 ^ 63) ≤ v ∧ v < 2 ^ 63
  | .Float bits => bits < 2 ^ 32
  | .Double bits => bits < 2 ^ 64
  | .Rational num denom => num < 2 ^ 32 ∧ denom < 2 ^ 32
  | .SRational num denom =>
      (-(2 ^ 31) ≤ num ∧ num < 2 ^ 31) ∧ (-(2 ^ 31) ≤ denom ∧ denom < 2 ^ 31)
  | .Ascii s => ∀ b ∈ s, 0 < b ∧ b < 128
  | .List _ => False
  | .Ifd _ => False
  | .Ifd8 _ => False

-- ---------------------------------------------------------------------------
-- Byte-arithmetic lemmas
-- ---------------------------------------------------------------------------

lemma fromLeBytes_lt {l : List Nat} (h : ∀ b ∈ l, b < 256) :
    fromLeBytes l < 2 ^ (8 * l.length) := by
  induction l with
  | nil => simp [fromLeBytes]
  | cons b rest ih =>
    have hb : b < 256 := h b (by simp)
    have hr : fromLeBytes rest < 2 ^ (8 * rest.length) :=
      ih (fun x hx => h x (by simp [hx]))
    simp only [fromLeBytes, List.length_cons]
    have hp : 2 ^ (8 * (rest.length + 1)) = 256 * 2 ^ (8 * rest.length) := by
      rw [Nat.mul_add, Nat.pow_add]; ring
    omega

lemma natToLeBytes_length (w n : Nat) : (natToLeBytes w n).length = w := by
  induction w generalizing n with
  | zero => simp [natToLeBytes]
  | succ w ih => simp [natToLeBytes, ih]

lemma natToLeBytes_lt (w n : Nat) : ∀ b ∈ natToLeBytes w n, b < 256 := by
  induction w generalizing n with
  | zero => simp [natToLeBytes]
  | succ w ih =>
    intro b hb
    simp only [natToLeBytes, List.mem_cons] at hb
    rcases hb with hb | hb
    · omega
    · exact ih (n / 256) b hb

lemma fromLe_natToLe (w n : Nat) (h : n < 2 ^ (8 * w)) :
    fromLeBytes (natToLeBytes w n) = n := by
  induction w generalizing n with
  | zero =>
    simp only [Nat.mul_zero, Nat.pow_zero] at h
    simp [natToLeBytes, fromLeBytes]
    omega
  | succ w ih =>
    have hp : 2 ^ (8 * (w + 1)) = 256 * 2 ^ (8 * w) := by
      rw [Nat.mul_add, Nat.pow_add]; ring
    simp only [natToLeBytes, fromLeBytes]
    rw [ih (n / 256) (by omega)]
    omega

lemma intToLeBytes_length (w : Nat) (i : Int) : (intToLeBytes w i).length = w :=
  natToLeBytes_length _ _

lemma intToLeBytes_lt (w : Nat) (i : Int) : ∀ b ∈ intToLeBytes w i, b < 256 :=
  natToLeBytes_lt _ _

lemma fromLe_intToLe (w : Nat) (i : Int) :
    fromLeBytes (intToLeBytes w i) = (i % (2 ^ (8 * w) : Int)).toNat := by
  apply fromLe_natToLe
  have h0 : (0 : Int) < 2 ^ (8 * w) := by positivity
  have h1 := Int.emod_lt_of_pos i h0
  have h2 := Int.emod_nonneg i (ne_of_gt h0)
  have hcast : ((2 ^ (8 * w) : Nat) : Int) = 2 ^ (8 * w) := by push_cast; ring
  omega

-- ---------------------------------------------------------------------------
-- exactChunks lemmas
-- ---------------------------------------------------------------------------

lemma exactChunksFuel_congr (f1 f2 w : Nat) (l : List Nat)
    (h1 : l.length ≤ f1) (h2 : l.length ≤ f2) :
    exactChunksFuel f1 w l = exactChunksFuel f2 w l := by
  induction f1 generalizing f2 l with
  | zero =>
    have hl : l = [] := List.length_eq_zero.mp (by omega)
    subst hl
    cases f2 with
    | zero => rfl
    | succ f2 =>
      simp only [exactChunksFuel]
      rw [if_pos (by simp; omega)]
  | succ f1 ih =>
    cases f2 with
    | zero =>
      have hl : l = [] := List.length_eq_zero.mp (by omega)
      subst hl
      simp only [exactChunksFuel]
      rw [if_pos (by simp; omega)]
    | succ f2 =>
      simp only [exactChunksFuel]
      by_cases hc : w = 0 ∨ l.length < w
      · rw [if_pos hc, if_pos hc]
      · rw [if_neg hc, if_neg hc]
        have hw : 0 < w := by omega
        have hlen : (l.drop w).length ≤ f1 := by
          simp only [List.length_drop]; omega
        have hlen2 : (l.drop w).length ≤ f2 := by
          simp only [List.length_drop]; omega
        rw [ih f2 (l.drop w) hlen hlen2]

lemma exactChunks_eq (w : Nat) (l : List Nat) :
    exactChunks w l =
      if w = 0 ∨ l.length < w then [] else l.take w :: exactChunks w (l.drop w) := by
  by_cases hc : w = 0 ∨ l.length < w
  · rw [if_pos hc]
    unfold exactChunks
    cases hl : l.length with
    | zero => rfl
    | succ n =>
      simp only [exactChunksFuel]
      rw [if_pos (by omega)]
  · rw [if_neg hc]
    unfold exactChunks
    have hw : 0 < w := by omega
    have hlen : w ≤ l.length := by omega
    cases hl : l.length with
    | zero => omega
    | succ n =>
      simp only [exactChunksFuel]
      rw [if_neg (by omega)]
      congr 1
      apply exactChunksFuel_congr
      · simp only [List.length_drop]; omega
      · simp only [List.length_drop]; omega

lemma exactChunks_getElem? (w : Nat) (hw : 0 < w) (l : List Nat) (i : Nat)
    (hi : i * w + w ≤ l.length) :
    (exactChunks w l)[i]? = some ((l.drop (i * w)).take w) := by
  induction i generalizing l with
  | zero =>
    rw [exactChunks_eq, if_neg (by omega)]
    simp
  | succ i ih =>
    have hiw : (i + 1) * w = i * w + w := by ring
    rw [hiw] at hi
    rw [exactChunks_eq, if_neg (by omega)]
    simp only [List.getElem?_cons_succ]
    rw [ih (l.drop w) (by simp only [List.length_drop]; omega)]
    rw [List.drop_drop]
    congr 2
    ring

-- ---------------------------------------------------------------------------
-- C2 auxiliary lemmas: each scalar conversion matches its spec-side form
-- ---------------------------------------------------------------------------

lemma c2aux_u8 (e : BufferedEntry) (hwf : ∀ b ∈ e.data, b < 256) :
    u8_try_from e = expectedU 8 e := by
  obtain ⟨t, c, d⟩ := e
  by_cases hlen : d.length = t.size
  · have hb := fromLeBytes_lt (l := d) hwf
    rw [hlen] at hb
    cases t <;>
      simp_all [u8_try_from, expectedU, narrowU, unsignedSources, TagType.size] <;>
      split_ifs <;> simp_all <;> omega
  · simp [u8_try_from, expectedU, hlen]

lemma c2aux_u16 (e : BufferedEntry) (hwf : ∀ b ∈ e.data, b < 256) :
    u16_try_from e = expectedU 16 e := by
  obtain ⟨t, c, d⟩ := e
  by_cases hlen : d.length = t.size
  · have hb := fromLeBytes_lt (l := d) hwf
    rw [hlen] at hb
    cases t <;>
      simp_all [u16_try_from, expectedU, narrowU, unsignedSources, TagType.size] <;>
      split_ifs <;> simp_all <;> omega
  · simp [u16_try_from, expectedU, hlen]

lemma c2aux_u32 (e : BufferedEntry) (hwf : ∀ b ∈ e.data, b < 256) :
    u32_try_from e = expectedU 32 e := by
  obtain ⟨t, c, d⟩ := e
  by_cases hlen : d.length = t.size
  · have hb := fromLeBytes_lt (l := d) hwf
    rw [hlen] at hb
    cases t <;>
      simp_all [u32_try_from, expectedU, narrowU, unsignedSources, TagType.size] <;>
      split_ifs <;> simp_all <;> omega
  · simp [u32_try_from, expectedU, hlen]

lemma c2aux_u64 (e : BufferedEntry) (hwf : ∀ b ∈ e.data, b < 256) :
    u64_try_from e = expectedU 64 e := by
  obtain ⟨t, c, d⟩ := e
  by_cases hlen : d.length = t.size
  · have hb := fromLeBytes_lt (l := d) hwf
    rw [hlen] at hb
    cases t <;>
      simp_all [u64_try_from, expectedU, narrowU, unsignedSources, TagType.size] <;>
      split_ifs <;> simp_all <;> omega
  · simp [u64_try_from, expectedU, hlen]

lemma c2aux_f32 (e : BufferedEntry) :
    f32_try_from e = expectedF32 e := by
  obtain ⟨t, c, d⟩ := e
  by_cases hlen : d.length = t.size
  · cases t <;> simp_all [f32_try_from, expectedF32, TagType.size]
  · simp [f32_try_from, expectedF32, hlen]

lemma c2aux_f64 (e : BufferedEntry) :
    f64_try_from e = expectedF64 e := by
  obtain ⟨t, c, d⟩ := e
  by_cases hlen : d.length = t.size
  · cases t <;> simp_all [f64_try_from, expectedF64, TagType.size]
  · simp [f64_try_from, expectedF64, hlen]

lemma c2aux_i8 (e : BufferedEntry) (hwf : ∀ b ∈ e.data, b < 256) :
    i8_try_from e = expectedI 8 e := by
  obtain ⟨t, c, d⟩ := e
  by_cases hlen : d.length = t.size
  · have hb := fromLeBytes_lt (l := d) hwf
    rw [hlen] at hb
    cases t <;>
      simp_all [i8_try_from, expectedI, narrowI, signedSources, TagType.size] <;>
      (split_ifs with hcond
       · rfl
       · exact absurd (by constructor <;> (unfold toSigned; split <;> omega)) hcond)
  · simp [i8_try_from, expectedI, hlen]

lemma c2aux_i16 (e : BufferedEntry) (hwf : ∀ b ∈ e.data, b < 256) :
    i16_try_from e = expectedI 16 e := by
  obtain ⟨t, c, d⟩ := e
  by_cases hlen : d.length = t.size
  · have hb := fromLeBytes_lt (l := d) hwf
    rw [hlen] at hb
    cases t <;>
      simp_all [i16_try_from, expectedI, narrowI, signedSources, TagType.size] <;>
      (split_ifs with hcond
       · rfl
       · exact absurd (by constructor <;> (unfold toSigned; split <;> omega)) hcond)
  · simp [i16_try_from, expectedI, hlen]

lemma c2aux_i32 (e : BufferedEntry) (hwf : ∀ b ∈ e.data, b < 256) :
    i32_try_from e = expectedI 32 e := by
  obtain ⟨t, c, d⟩ := e
  by_cases hlen : d.length = t.size
  · have hb := fromLeBytes_lt (l := d) hwf
    rw [hlen] at hb
    cases t <;>
      simp_all [i32_try_from, expectedI, narrowI, signedSources, TagType.size] <;>
      (split_ifs with hcond
       · rfl
       · exact absurd (by constructor <;> (unfold toSigned; split <;> omega)) hcond)
  · simp [i32_try_from, expectedI, hlen]

lemma c2aux_i64 (e : BufferedEntry) (hwf : ∀ b ∈ e.data, b < 256) :
    i64_try_from e = expectedI 64 e := by
  obtain ⟨t, c, d⟩ := e
  by_cases hlen : d.length = t.size
  · have hb := fromLeBytes_lt (l := d) hwf
    rw [hlen] at hb
    cases t <;>
      simp_all [i64_try_from, expectedI, narrowI, signedSources, TagType.size] <;>
      (split_ifs with hcond
       · rfl
       · exact absurd (by constructor <;> (unfold toSigned; split <;> omega)) hcond)
  · simp [i64_try_from, expectedI, hlen]

-- ---------------------------------------------------------------------------
-- Claim theorems
-- ---------------------------------------------------------------------------

/-- C1: once the tag type `t` and count `c` of an entry record have been
read, `IfdEntry::from_reader` produces an inline `Value` exactly when the
computed byte length `c * t.size` is at most 4 (classic) / 8 (BigTIFF) and
`t` is neither `IFD` nor `IFD8`; in every other case it produces an
`Offset` descriptor carrying `t`, `c` and the offset read next from the
stream (u32 classic / u64 BigTIFF). -/
theorem from_reader_inline_iff (bo : ByteOrder) (big : Bool) (s s1 s2 : List Nat)
    (t : TagType) (c : Nat)
    (h1 : read_tag_type bo s = .ok (t, s1))
    (h2 : read_count bo big s1 = .ok (c, s2))
    (hnof : c * t.size < 2 ^ 64) :
    (c * t.size ≤ (if big then 8 else 4) ∧ t ≠ .IFD ∧ t ≠ .IFD8 →
      IfdEntry.from_reader bo big s =
        (readExactN (c * t.size) s2).map
          (fun p => (.Value ⟨t, c, fix_endianness p.1 bo (8 * t.primitive_size)⟩, p.2)))
    ∧ (¬(c * t.size ≤ (if big then 8 else 4) ∧ t ≠ .IFD ∧ t ≠ .IFD8) →
      IfdEntry.from_reader bo big s =
        (read_offset_field bo big s2).map (fun p => (.Offset t c p.1, p.2))) := by
  unfold IfdEntry.from_reader
  simp only [h1, h2]
  rw [if_neg (show ¬ 2 ^ 64 ≤ c * t.size by omega)]
  constructor
  · rintro ⟨hle, hi, hi8⟩
    have hcond : ((!big && decide (4 < c * t.size)) || decide (8 < c * t.size)
        || t == .IFD || t == .IFD8) = false := by
      cases big <;>
        simp only [Bool.or_eq_false_iff, Bool.and_eq_false_iff,
          decide_eq_false_iff_not, not_lt, beq_eq_false_iff_ne, ne_eq,
          Bool.not_true, Bool.not_false, Bool.false_and, Bool.true_and] <;>
        simp_all <;> omega
    rw [hcond]
    simp only [Bool.false_eq_true, if_false]
    cases hx : readExactN (c * t.size) s2 with
    | error e => simp [Except.map]
    | ok p => cases p with | mk raw rest => simp [Except.map]
  · intro hnot
    have hcond : ((!big && decide (4 < c * t.size)) || decide (8 < c * t.size)
        || t == .IFD || t == .IFD8) = true := by
      by_cases hi : t = .IFD
      · simp [hi]
      · by_cases hi8 : t = .IFD8
        · simp [hi8]
        · have hgt : (if big then 8 else 4) < c * t.size := by
            by_contra hh
            exact hnot ⟨by omega, hi, hi8⟩
          cases big <;>
            simp only [Bool.or_eq_true, Bool.and_eq_true, decide_eq_true_eq,
              Bool.not_true, Bool.not_false, Bool.false_and, Bool.true_and] <;>
            simp_all <;> omega
    rw [hcond]
    simp only [if_true]
    cases hx : read_offset_field bo big s2 with
    | error e => simp [Except.map]
    | ok p => cases p with | mk off rest => simp [Except.map]

/-- Witness for C1: the claim instantiated at the classic-format record
`type=SHORT, count=1, value=300`, whose byte length 2 fits inline. -/
theorem from_reader_inline_iff_witness :
    (read_tag_type .LittleEndian [3, 0, 1, 0, 0, 0, 44, 1, 0, 0]
        = .ok (.SHORT, [1, 0, 0, 0, 44, 1, 0, 0])) ∧
    (read_count .LittleEndian false [1, 0, 0, 0, 44, 1, 0, 0]
        = .ok (1, [44, 1, 0, 0])) ∧
    (1 * TagType.size .SHORT < 2 ^ 64) ∧
    ((1 * TagType.size .SHORT ≤ (if false then 8 else 4) ∧
        TagType.SHORT ≠ .IFD ∧ TagType.SHORT ≠ .IFD8 →
      IfdEntry.from_reader .LittleEndian false [3, 0, 1, 0, 0, 0, 44, 1, 0, 0] =
        (readExactN (1 * TagType.size .SHORT) [44, 1, 0, 0]).map
          (fun p => (.Value ⟨.SHORT, 1,
            fix_endianness p.1 .LittleEndian (8 * TagType.primitive_size .SHORT)⟩, p.2)))
    ∧ (¬(1 * TagType.size .SHORT ≤ (if false then 8 else 4) ∧
        TagType.SHORT ≠ .IFD ∧ TagType.SHORT ≠ .IFD8) →
      IfdEntry.from_reader .LittleEndian false [3, 0, 1, 0, 0, 0, 44, 1, 0, 0] =
        (read_offset_field .LittleEndian false [44, 1, 0, 0]).map
          (fun p => (.Offset .SHORT 1 p.1, p.2)))) :=
  ⟨by decide, by decide, by decide,
    from_reader_inline_iff .LittleEndian false [3, 0, 1, 0, 0, 0, 44, 1, 0, 0]
      [1, 0, 0, 0, 44, 1, 0, 0] [44, 1, 0, 0] .SHORT 1
      (by decide) (by decide) (by decide)⟩

/-- C2: for every source tag type and every requested scalar type, the
conversion `T::try_from(&BufferedEntry)` is exactly the spec's contract:
it succeeds iff the data length equals the tag type's width, the source's
numeric class is the target's class, and the value fits in the target;
a size mismatch is `InconsistentSizesEncountered`, a wrong class is the
class-specific error (in particular a float entry requested as a signed
integer is `SignedIntegerExpected`), and an out-of-range narrowing is
`IntSizeError`. Every outcome is a returned value of a total function —
never a panic. -/
theorem scalar_conversion_matrix (e : BufferedEntry)
    (hwf : ∀ b ∈ e.data, b < 256) :
    u8_try_from e = expectedU 8 e ∧ u16_try_from e = expectedU 16 e ∧
    u32_try_from e = expectedU 32 e ∧ u64_try_from e = expectedU 64 e ∧
    i8_try_from e = expectedI 8 e ∧ i16_try_from e = expectedI 16 e ∧
    i32_try_from e = expectedI 32 e ∧ i64_try_from e = expectedI 64 e ∧
    f32_try_from e = expectedF32 e ∧ f64_try_from e = expectedF64 e :=
  ⟨c2aux_u8 e hwf, c2aux_u16 e hwf, c2aux_u32 e hwf, c2aux_u64 e hwf,
   c2aux_i8 e hwf, c2aux_i16 e hwf, c2aux_i32 e hwf, c2aux_i64 e hwf,
   c2aux_f32 e, c2aux_f64 e⟩

/-- Witness for C2 at the concrete entry `(SHORT, 1, bytes of 300)`. -/
theorem scalar_conversion_matrix_witness :
    (∀ b ∈ ([44, 1] : List Nat), b < 256) ∧
    (u8_try_from ⟨.SHORT, 1, [44, 1]⟩ = expectedU 8 ⟨.SHORT, 1, [44, 1]⟩ ∧
     u16_try_from ⟨.SHORT, 1, [44, 1]⟩ = expectedU 16 ⟨.SHORT, 1, [44, 1]⟩ ∧
     u32_try_from ⟨.SHORT, 1, [44, 1]⟩ = expectedU 32 ⟨.SHORT, 1, [44, 1]⟩ ∧
     u64_try_from ⟨.SHORT, 1, [44, 1]⟩ = expectedU 64 ⟨.SHORT, 1, [44, 1]⟩ ∧
     i8_try_from ⟨.SHORT, 1, [44, 1]⟩ = expectedI 8 ⟨.SHORT, 1, [44, 1]⟩ ∧
     i16_try_from ⟨.SHORT, 1, [44, 1]⟩ = expectedI 16 ⟨.SHORT, 1, [44, 1]⟩ ∧
     i32_try_from ⟨.SHORT, 1, [44, 1]⟩ = expectedI 32 ⟨.SHORT, 1, [44, 1]⟩ ∧
     i64_try_from ⟨.SHORT, 1, [44, 1]⟩ = expectedI 64 ⟨.SHORT, 1, [44, 1]⟩ ∧
     f32_try_from ⟨.SHORT, 1, [44, 1]⟩ = expectedF32 ⟨.SHORT, 1, [44, 1]⟩ ∧
     f64_try_from ⟨.SHORT, 1, [44, 1]⟩ = expectedF64 ⟨.SHORT, 1, [44, 1]⟩) :=
  ⟨by decide, scalar_conversion_matrix ⟨.SHORT, 1, [44, 1]⟩ (by decide)⟩

/-- C4 fails on the code: decoding the classic-format record
`type=SHORT, count=1, value=300` consumes only `count * width = 2` bytes of
the 4-byte offset/value field — the bytes `[0, 0]` remain unread, so the
stream advanced 8 bytes instead of the fixed 10-byte record size (and a
zero-count entry would consume 0 value bytes). -/
theorem from_reader_partial_consumption :
    IfdEntry.from_reader .LittleEndian false [3, 0, 1, 0, 0, 0, 44, 1, 0, 0]
      = .ok (.Value ⟨.SHORT, 1, [44, 1]⟩, [0, 0]) ∧
    ([3, 0, 1, 0, 0, 0, 44, 1, 0, 0] : List Nat).length - ([0, 0] : List Nat).length = 8 := by
  constructor
  · decide
  · decide

/-- C8: `IfdEntry::from_reader` computes the byte length with checked
arithmetic: whenever the parsed count times the tag type's width reaches
`2^64` (a `u64` overflow), the decoder returns `LimitsExceeded`. (The
embedding is a total function into `Except`, so every outcome of the
decoder is a returned result.) -/
theorem from_reader_checked_mul (bo : ByteOrder) (big : Bool)
    (s s1 s2 : List Nat) (t : TagType) (c : Nat)
    (h1 : read_tag_type bo s = .ok (t, s1))
    (h2 : read_count bo big s1 = .ok (c, s2))
    (hover : 2 ^ 64 ≤ c * t.size) :
    IfdEntry.from_reader bo big s = .error .LimitsExceeded := by
  unfold IfdEntry.from_reader
  simp only [h1, h2]
  rw [if_pos hover]

/-- Witness for C8: a BigTIFF `DOUBLE` entry with count `2^61`, whose byte
length `2^61 * 8 = 2^64` overflows `u64`. -/
theorem from_reader_checked_mul_witness :
    (read_tag_type .LittleEndian [12, 0, 0, 0, 0, 0, 0, 0, 0, 32]
        = .ok (.DOUBLE, [0, 0, 0, 0, 0, 0, 0, 32])) ∧
    (read_count .LittleEndian true [0, 0, 0, 0, 0, 0, 0, 32]
        = .ok (2305843009213693952, [])) ∧
    (2 ^ 64 ≤ 2305843009213693952 * TagType.size .DOUBLE) ∧
    IfdEntry.from_reader .LittleEndian true [12, 0, 0, 0, 0, 0, 0, 0, 0, 32]
      = .error .LimitsExceeded :=
  ⟨by decide, by decide, by decide,
    from_reader_checked_mul .LittleEndian true [12, 0, 0, 0, 0, 0, 0, 0, 0, 32]
      [0, 0, 0, 0, 0, 0, 0, 32] [] .DOUBLE 2305843009213693952
      (by decide) (by decide) (by decide)⟩

/-- C3 fails on the code: an `IFD`-typed `BufferedEntry` is accepted by the
scalar and slice converters — `u32::try_from` returns the value and
`<&[u32]>::try_from` returns the elements, with no usage error. -/
theorem ifd_scalar_conversion_succeeds :
    u32_try_from ⟨.IFD, 1, [42, 0, 0, 0]⟩ = .ok 42 ∧
    slice_u32_try_from ⟨.IFD, 2, [1, 0, 0, 0, 2, 0, 0, 0]⟩ = .ok [1, 2] := by
  constructor <;> decide

/-- C3 amended: only the `Value` conversion rejects `IFD`/`IFD8` entries
with the dedicated usage error `IfdReadIntoEntry` (for `count = 1`, and for
`count ≠ 1` whenever a full element chunk is present); the scalar unsigned
conversions and the `u32`/`u64` slice conversions treat `IFD` as `LONG`-class
and `IFD8` as `LONG8`-class and succeed on size-matched data. -/
theorem ifd_entry_conversions (e : BufferedEntry)
    (h : e.tag_type = .IFD ∨ e.tag_type = .IFD8) :
    (e.count = 1 → value_try_from e = some (.error (.UsageError .IfdReadIntoEntry)))
    ∧ (e.count ≠ 1 → e.tag_type.size ≤ e.data.length →
        value_try_from e = some (.error (.UsageError .IfdReadIntoEntry)))
    ∧ (e.data.length = e.tag_type.size → (u64_try_from e).isOk = true)
    ∧ (e.data.length = e.tag_type.size * e.count →
        ((slice_u32_try_from e).isOk || (slice_u64_try_from e).isOk) = true) := by
  obtain ⟨t, c, d⟩ := e
  rcases h with h | h <;> subst h <;> refine ⟨?_, ?_, ?_, ?_⟩
  · intro h1
    have h1' : c = 1 := h1
    subst h1'
    simp [value_try_from, from_single]
  · intro h1 h2
    have h1' : ¬ (c = 1) := h1
    have h2' : 4 ≤ d.length := h2
    simp only [value_try_from]
    rw [if_neg h1', if_neg (by decide : ¬ (TagType.IFD = TagType.ASCII))]
    rw [show TagType.IFD.size = 4 from rfl]
    rw [exactChunks_eq, if_neg (by simp; omega)]
    simp [collectSingles, from_single]
  · intro h1
    have h1' : d.length = 4 := h1
    simp only [u64_try_from, h1', TagType.size]
    rfl
  · intro h1
    have h1' : d.length = 4 * c := h1
    simp only [slice_u32_try_from, slice_u64_try_from, slice_try_from, h1',
      TagType.size, List.mem_cons, Bool.or_eq_true]
    refine Or.inl ?_
    rw [if_neg (by omega), if_pos (by simp)]
    rfl
  · intro h1
    have h1' : c = 1 := h1
    subst h1'
    simp [value_try_from, from_single]
  · intro h1 h2
    have h1' : ¬ (c = 1) := h1
    have h2' : 8 ≤ d.length := h2
    simp only [value_try_from]
    rw [if_neg h1', if_neg (by decide : ¬ (TagType.IFD8 = TagType.ASCII))]
    rw [show TagType.IFD8.size = 8 from rfl]
    rw [exactChunks_eq, if_neg (by simp; omega)]
    simp [collectSingles, from_single]
  · intro h1
    have h1' : d.length = 8 := h1
    simp only [u64_try_from, h1', TagType.size]
    rfl
  · intro h1
    have h1' : d.length = 8 * c := h1
    simp only [slice_u32_try_from, slice_u64_try_from, slice_try_from, h1',
      TagType.size, List.mem_cons, Bool.or_eq_true]
    refine Or.inr ?_
    rw [if_neg (by omega), if_pos (by simp)]
    rfl

/-- Witness for C3 (amended) at the concrete `IFD8` entry with value 7. -/
theorem ifd_entry_conversions_witness :
    ((⟨.IFD8, 1, [7, 0, 0, 0, 0, 0, 0, 0]⟩ : BufferedEntry).tag_type = .IFD ∨
      (⟨.IFD8, 1, [7, 0, 0, 0, 0, 0, 0, 0]⟩ : BufferedEntry).tag_type = .IFD8) ∧
    (((⟨.IFD8, 1, [7, 0, 0, 0, 0, 0, 0, 0]⟩ : BufferedEntry).count = 1 →
        value_try_from ⟨.IFD8, 1, [7, 0, 0, 0, 0, 0, 0, 0]⟩
          = some (.error (.UsageError .IfdReadIntoEntry)))
      ∧ ((⟨.IFD8, 1, [7, 0, 0, 0, 0, 0, 0, 0]⟩ : BufferedEntry).count ≠ 1 →
          (⟨.IFD8, 1, [7, 0, 0, 0, 0, 0, 0, 0]⟩ : BufferedEntry).tag_type.size ≤
            (⟨.IFD8, 1, [7, 0, 0, 0, 0, 0, 0, 0]⟩ : BufferedEntry).data.length →
          value_try_from ⟨.IFD8, 1, [7, 0, 0, 0, 0, 0, 0, 0]⟩
            = some (.error (.UsageError .IfdReadIntoEntry)))
      ∧ ((⟨.IFD8, 1, [7, 0, 0, 0, 0, 0, 0, 0]⟩ : BufferedEntry).data.length =
            (⟨.IFD8, 1, [7, 0, 0, 0, 0, 0, 0, 0]⟩ : BufferedEntry).tag_type.size →
          (u64_try_from ⟨.IFD8, 1, [7, 0, 0, 0, 0, 0, 0, 0]⟩).isOk = true)
      ∧ ((⟨.IFD8, 1, [7, 0, 0, 0, 0, 0, 0, 0]⟩ : BufferedEntry).data.length =
            (⟨.IFD8, 1, [7, 0, 0, 0, 0, 0, 0, 0]⟩ : BufferedEntry).tag_type.size *
              (⟨.IFD8, 1, [7, 0, 0, 0, 0, 0, 0, 0]⟩ : BufferedEntry).count →
          ((slice_u32_try_from ⟨.IFD8, 1, [7, 0, 0, 0, 0, 0, 0, 0]⟩).isOk ||
            (slice_u64_try_from ⟨.IFD8, 1, [7, 0, 0, 0, 0, 0, 0, 0]⟩).isOk) = true)) :=
  ⟨Or.inr rfl, ifd_entry_conversions ⟨.IFD8, 1, [7, 0, 0, 0, 0, 0, 0, 0]⟩ (Or.inr rfl)⟩

/-- C10: on a `BufferedEntry` whose data length equals `count * width`,
`get_u64(index)` never panics: `index ≥ count` yields `LimitsExceeded`; an
unsigned-class tag type (BYTE/SHORT/LONG/IFD/LONG8/IFD8) with
`index < count` yields the `index`-th element of the data; any other tag
type yields `UnsignedIntegerExpected`. -/
theorem get_u64_characterization (e : BufferedEntry) (index : Nat)
    (h : e.data.length = e.tag_type.size * e.count) :
    (e.count ≤ index → e.get_u64 index = some (.error .LimitsExceeded))
    ∧ (index < e.count → e.tag_type ∈ unsignedSources →
        e.get_u64 index = some (.ok (fromLeBytes
          ((e.data.drop (index * e.tag_type.size)).take e.tag_type.size))))
    ∧ (index < e.count → e.tag_type ∉ unsignedSources →
        e.get_u64 index = some (.error (.FormatError (.UnsignedIntegerExpected e)))) := by
  obtain ⟨t, c, d⟩ := e
  simp only at h
  refine ⟨?_, ?_, ?_⟩
  · intro hle
    simp only [BufferedEntry.get_u64]
    rw [if_pos hle]
  · intro hlt hmem
    have hlt' : index < c := hlt
    have hnle : ¬ (c ≤ index) := by omega
    simp only [unsignedSources, List.mem_cons, List.not_mem_nil, or_false] at hmem
    rcases hmem with rfl | rfl | rfl | rfl | rfl | rfl <;>
      (simp only [TagType.size] at h
       simp only [BufferedEntry.get_u64, slice_u8_try_from, slice_u16_try_from,
         slice_u32_try_from, slice_u64_try_from, slice_try_from]
       rw [if_neg hnle]
       simp only [TagType.size]
       rw [if_neg (by omega), if_pos (by simp)]
       dsimp only
       rw [List.getElem?_map, exactChunks_getElem? _ (by norm_num) _ _ (by omega)]
       rfl)
  · intro hlt hmem
    have hlt' : index < c := hlt
    have hnle : ¬ (c ≤ index) := by omega
    simp only [unsignedSources, List.mem_cons, List.not_mem_nil, or_false] at hmem
    push_neg at hmem
    obtain ⟨hm1, hm2, hm3, hm4, hm5, hm6⟩ := hmem
    cases t <;> simp_all [BufferedEntry.get_u64]

/-- Witness for C10 at a two-element `SHORT` entry, index 1. -/
theorem get_u64_characterization_witness :
    ((⟨.SHORT, 2, [1, 0, 2, 0]⟩ : BufferedEntry).data.length =
      (⟨.SHORT, 2, [1, 0, 2, 0]⟩ : BufferedEntry).tag_type.size *
        (⟨.SHORT, 2, [1, 0, 2, 0]⟩ : BufferedEntry).count) ∧
    BufferedEntry.get_u64 ⟨.SHORT, 2, [1, 0, 2, 0]⟩ 1 = some (.ok 2) := by
  refine ⟨by decide, ?_⟩
  have h := (get_u64_characterization ⟨.SHORT, 2, [1, 0, 2, 0]⟩ 1 (by decide)).2.1
    (by decide) (by decide)
  rw [h]
  decide

-- ---------------------------------------------------------------------------
-- Directory-insert lemmas
-- ---------------------------------------------------------------------------

lemma dirInsert_fst (l : List (Nat × IfdEntry)) (k : Nat) (v : IfdEntry) :
    (dirInsert l k v).1 = dirLookup l k := by
  induction l with
  | nil => simp [dirInsert, dirLookup]
  | cons p rest ih =>
    obtain ⟨k', v'⟩ := p
    by_cases hk : k = k' <;> simp [dirInsert, dirLookup, hk, ih]

lemma dirLookup_dirInsert (l : List (Nat × IfdEntry)) (k : Nat) (v : IfdEntry) :
    dirLookup (dirInsert l k v).2 k = some v := by
  induction l with
  | nil => simp [dirInsert, dirLookup]
  | cons p rest ih =>
    obtain ⟨k', v'⟩ := p
    by_cases hk : k = k' <;> simp [dirInsert, dirLookup, hk, ih]

-- ---------------------------------------------------------------------------
-- Claims C5, C6, C9
-- ---------------------------------------------------------------------------

/-- C5 fails on the code: on a fresh `Partial` cache with base offset 1000
and `chunk_size = 16`, `get_u64(42)` returns a fetch descriptor whose byte
offset is the stored base offset (1000) and whose length is `chunk_size` —
not a descriptor for the backing-store byte range starting at
`42 * 16 * width`, for any element width. -/
theorem partial_cache_first_get :
    (MaybePartial.get_u64_partial ⟨1000, 16, [], []⟩ 42).1
      = some (.ok (.NeedRead 1000 16 (List.replicate 16 0)))
    ∧ (∀ w ∈ ([1, 2, 4, 8] : List Nat), (1000 : Nat) ≠ 42 * 16 * w) := by
  constructor
  · decide
  · decide

/-- C5 amended: on a fresh `Partial` cache with `chunk_size = 16`, the first
`get_u64(42)` marks chunk `42 / 16 = 2` pending and returns a fetch
descriptor carrying the cache's stored base byte offset, a count of
`chunk_size` and a `chunk_size`-byte zero buffer; a second `get_u64(42)`
issued before completion returns a wait handle, not a second fetch
descriptor. -/
theorem partial_cache_get_behaviour (o : Nat) :
    MaybePartial.get_u64_partial ⟨o, 16, [], []⟩ 42
      = (some (.ok (.NeedRead o 16 (List.replicate 16 0))), ⟨o, 16, [], [2]⟩)
    ∧ (MaybePartial.get_u64_partial ⟨o, 16, [], [2]⟩ 42).1 = some (.ok .Pending) := by
  constructor
  · simp [MaybePartial.get_u64_partial, chunkLookup]
  · simp [MaybePartial.get_u64_partial, chunkLookup]

/-- C6 fails on the code: re-promoting a tag whose entry is already a
resolved inline value does not fail with `DuplicateTagData` — the entry is
silently replaced and the old entry returned (the function's result type
carries no error at all, and `DuplicateTagData` is never constructed). -/
theorem insert_tag_data_replaces_resolved :
    Ifd.insert_tag_data_from_buffer ⟨[], [(256, .Value ⟨.BYTE, 1, [7]⟩)]⟩
        256 ⟨.BYTE, 1, [9]⟩
      = (some (.Value ⟨.BYTE, 1, [7]⟩),
          ⟨[], [(256, .Value ⟨.BYTE, 1, [9]⟩)]⟩) := by
  decide

/-- C6 amended: promotion never fails. For any tag already bound — whether
to an `Offset` descriptor or an already-resolved `Value` —
`insert_tag_data_from_buffer` replaces the binding with `Value(data)` and
returns the previous entry (`Some old`), which is the caller's
duplicate-data signal; no `DuplicateTagData` error is raised. -/
theorem insert_tag_data_returns_old (ifd : Ifd) (tag : Nat) (old : IfdEntry)
    (data : BufferedEntry) (h : dirLookup ifd.data tag = some old) :
    (Ifd.insert_tag_data_from_buffer ifd tag data).1 = some old
    ∧ dirLookup (Ifd.insert_tag_data_from_buffer ifd tag data).2.data tag
        = some (.Value data) := by
  constructor
  · show (dirInsert ifd.data tag (.Value data)).1 = some old
    rw [dirInsert_fst]
    exact h
  · exact dirLookup_dirInsert ifd.data tag (.Value data)

/-- Witness for C6 (amended): promoting tag 300, currently an `Offset`. -/
theorem insert_tag_data_returns_old_witness :
    (dirLookup (⟨[], [(300, .Offset .LONG8 1 42)]⟩ : Ifd).data 300
        = some (.Offset .LONG8 1 42)) ∧
    ((Ifd.insert_tag_data_from_buffer ⟨[], [(300, .Offset .LONG8 1 42)]⟩ 300
        ⟨.LONG8, 1, [5, 0, 0, 0, 0, 0, 0, 0]⟩).1 = some (.Offset .LONG8 1 42)
      ∧ dirLookup (Ifd.insert_tag_data_from_buffer ⟨[], [(300, .Offset .LONG8 1 42)]⟩
          300 ⟨.LONG8, 1, [5, 0, 0, 0, 0, 0, 0, 0]⟩).2.data 300
          = some (.Value ⟨.LONG8, 1, [5, 0, 0, 0, 0, 0, 0, 0]⟩)) :=
  ⟨by decide,
    insert_tag_data_returns_old ⟨[], [(300, .Offset .LONG8 1 42)]⟩ 300
      (.Offset .LONG8 1 42) ⟨.LONG8, 1, [5, 0, 0, 0, 0, 0, 0, 0]⟩ (by decide)⟩

/-- C9 fails on the code in two ways: a `SHORT`-typed entry whose data is
7-bit ASCII and NUL-terminated is still rejected (`AsciiExpected`), so
"succeeds iff the data is ASCII and NUL-terminated" does not hold for every
entry; and `[0, 65, 0]` converts to `[65]` — the leading NUL is trimmed too,
not only the trailing one. -/
theorem str_conversion_type_and_trim :
    str_try_from ⟨.SHORT, 2, [65, 0]⟩
      = .error (.FormatError (.AsciiExpected ⟨.SHORT, 2, [65, 0]⟩))
    ∧ str_try_from ⟨.ASCII, 3, [0, 65, 0]⟩ = .ok [65] := by
  constructor
  · decide
  · decide

/-- C9 amended: string conversion requires `data.length = count` and a tag
type of `ASCII`, `BYTE` or `UNDEFINED`; given that, it succeeds iff the data
is 7-bit ASCII ending in a NUL, and returns the content with all leading and
trailing NULs trimmed; a wrong type fails `AsciiExpected`, a length mismatch
`InconsistentSizesEncountered`, other content `InvalidTag`. `Value`
conversion of an `ASCII` entry with `count ≠ 1` decodes as one string —
never a list of single-character values. -/
theorem str_conversion_characterization (e : BufferedEntry) :
    (str_try_from e =
      if e.data.length ≠ e.count then
        .error (.FormatError (.InconsistentSizesEncountered e))
      else if e.tag_type = .ASCII ∨ e.tag_type = .BYTE ∨ e.tag_type = .UNDEFINED then
        if isAsciiBytes e.data && endsWithNul e.data then .ok (trimNulBytes e.data)
        else .error (.FormatError .InvalidTag)
      else .error (.FormatError (.AsciiExpected e)))
    ∧ (e.count ≠ 1 → e.tag_type = .ASCII →
        value_try_from e = some (if isAsciiBytes e.data && endsWithNul e.data then
            .ok (.Ascii (trimNulBytes e.data))
          else .error (.FormatError .InvalidTag))) := by
  constructor
  · obtain ⟨t, c, d⟩ := e
    by_cases hlen : d.length = c
    · cases t <;> simp [str_try_from, hlen]
    · simp [str_try_from, hlen]
  · intro h1 h2
    obtain ⟨t, c, d⟩ := e
    have h2' : t = .ASCII := h2
    subst h2'
    have h1' : ¬ (c = 1) := h1
    simp [value_try_from, h1']

/-- Witness for C9 (amended) on the entry holding the string `ABC`. -/
theorem str_conversion_characterization_witness :
    str_try_from ⟨.ASCII, 4, [65, 66, 67, 0]⟩ = .ok [65, 66, 67]
    ∧ value_try_from ⟨.ASCII, 4, [65, 66, 67, 0]⟩
        = some (.ok (.Ascii [65, 66, 67])) := by
  have h := str_conversion_characterization ⟨.ASCII, 4, [65, 66, 67, 0]⟩
  refine ⟨?_, ?_⟩
  · rw [h.1]
    decide
  · rw [h.2 (by decide) rfl]
    rfl

-- ---------------------------------------------------------------------------
-- NUL-trimming lemmas and claim C7
-- ---------------------------------------------------------------------------

lemma dropWhile_zero_eq_self (m : List Nat) (h : ∀ b ∈ m, 0 < b) :
    m.dropWhile (fun b => b == 0) = m := by
  cases m with
  | nil => rfl
  | cons a t =>
    have ha : 0 < a := h a (by simp)
    rw [List.dropWhile_cons, if_neg (by simp; omega)]

lemma trimNul_append_zero (l : List Nat) (h : ∀ b ∈ l, 0 < b) :
    trimNulBytes (l ++ [0]) = l := by
  unfold trimNulBytes
  cases l with
  | nil => rfl
  | cons a t =>
    have ha : 0 < a := h a (by simp)
    rw [List.cons_append, List.dropWhile_cons, if_neg (by simp; omega)]
    rw [← List.cons_append, List.reverse_append]
    simp only [List.reverse_cons, List.reverse_nil, List.nil_append,
      List.singleton_append, List.dropWhile_cons]
    rw [if_pos (by simp)]
    rw [dropWhile_zero_eq_self _ (by
      intro b hb
      rcases List.mem_append.mp hb with hb | hb
      · exact h b (by simp [List.mem_reverse.mp hb])
      · simp only [List.mem_singleton] at hb
        subst hb
        exact ha)]
    simp

/-- C7 fails on the code: the directory-reference value `Value::Ifd(42)`
encodes to a `BufferedEntry`, but decoding that entry back fails with the
usage error `IfdReadIntoEntry`, so encode-then-decode does not return the
original value for every `TagType`. -/
theorem value_roundtrip_fails_for_ifd :
    buffered_entry_try_from (.Ifd 42) = some (.ok ⟨.IFD, 1, [42, 0, 0, 0]⟩)
    ∧ value_try_from ⟨.IFD, 1, [42, 0, 0, 0]⟩
        = some (.error (.UsageError .IfdReadIntoEntry)) :=
  ⟨rfl, rfl⟩

/-- C7 amended: every scalar (non-`List`) `Value` whose variant is not
`Ifd`/`Ifd8` — with `Ascii` restricted to NUL-free 7-bit content — survives
the round-trip `Value → BufferedEntry → Value` unchanged. The buffered form
stores native-order bytes, so byte order and classic/BigTIFF format do not
enter these conversions. -/
theorem value_scalar_roundtrip (v : Value) (h : scalarRoundTrippable v) :
    ∃ be, buffered_entry_try_from v = some (.ok be)
      ∧ value_try_from be = some (.ok v) := by
  cases v with
  | Byte v =>
    refine ⟨_, rfl, ?_⟩
    have hv : v < 2 ^ 8 := h
    simp [value_try_from, from_single, natToLeBytes]
    omega
  | SignedByte v =>
    refine ⟨_, rfl, ?_⟩
    obtain ⟨h1, h2⟩ := h
    simp [value_try_from, from_single, intToLeBytes, natToLeBytes, toSigned]
    split <;> omega
  | Undefined v =>
    refine ⟨_, rfl, ?_⟩
    have hv : v < 2 ^ 8 := h
    simp [value_try_from, from_single, natToLeBytes]
    omega
  | Short v =>
    refine ⟨_, rfl, ?_⟩
    have hv : v < 2 ^ 16 := h
    simp [value_try_from, from_single, natToLeBytes, fromLeBytes]
    omega
  | SShort v =>
    refine ⟨_, rfl, ?_⟩
    obtain ⟨h1, h2⟩ := h
    simp [value_try_from, from_single, intToLeBytes, natToLeBytes, fromLeBytes,
      toSigned]
    split <;> omega
  | Long v =>
    refine ⟨_, rfl, ?_⟩
    have hv : v < 2 ^ 32 := h
    simp [value_try_from, from_single, natToLeBytes, fromLeBytes]
    omega
  | SLong v =>
    refine ⟨_, rfl, ?_⟩
    obtain ⟨h1, h2⟩ := h
    simp [value_try_from, from_single, intToLeBytes, natToLeBytes, fromLeBytes,
      toSigned]
    split <;> omega
  | Long8 v =>
    refine ⟨_, rfl, ?_⟩
    have hv : v < 2 ^ 64 := h
    simp [value_try_from, from_single, natToLeBytes, fromLeBytes]
    omega
  | SLong8 v =>
    refine ⟨_, rfl, ?_⟩
    obtain ⟨h1, h2⟩ := h
    simp [value_try_from, from_single, intToLeBytes, natToLeBytes, fromLeBytes,
      toSigned]
    split <;> omega
  | Float bits =>
    refine ⟨_, rfl, ?_⟩
    have hv : bits < 2 ^ 32 := h
    simp [value_try_from, from_single, natToLeBytes, fromLeBytes]
    omega
  | Double bits =>
    refine ⟨_, rfl, ?_⟩
    have hv : bits < 2 ^ 64 := h
    simp [value_try_from, from_single, natToLeBytes, fromLeBytes]
    omega
  | Rational num denom =>
    refine ⟨_, rfl, ?_⟩
    obtain ⟨h1, h2⟩ := h
    simp [value_try_from, from_single, natToLeBytes, fromLeBytes]
    constructor <;> omega
  | SRational num denom =>
    refine ⟨_, rfl, ?_⟩
    obtain ⟨⟨h1, h2⟩, h3, h4⟩ := h
    simp [value_try_from, from_single, intToLeBytes, natToLeBytes, fromLeBytes,
      toSigned]
    constructor <;> (split <;> omega)
  | Ascii s =>
    refine ⟨_, rfl, ?_⟩
    cases s with
    | nil => rfl
    | cons a t =>
      have hcount : ¬ ((a :: t : List Nat).length + 1 = 1) := by simp
      have hascii : isAsciiBytes ((a :: t) ++ [0]) = true := by
        simp only [isAsciiBytes, List.all_eq_true]
        intro b hb
        rcases List.mem_append.mp hb with hb | hb
        · simpa using (h b hb).2
        · simp only [List.mem_singleton] at hb
          subst hb
          simp
      have hnul : endsWithNul ((a :: t) ++ [0]) = true := by
        unfold endsWithNul
        rw [List.getLast?_concat]
        rfl
      simp only [value_try_from]
      rw [if_neg hcount]
      simp only [reduceIte, hascii, hnul, Bool.and_self, if_true]
      rw [trimNul_append_zero _ (fun b hb => (h b hb).1)]
  | List vs => exact absurd h (by simp [scalarRoundTrippable])
  | Ifd v => exact absurd h (by simp [scalarRoundTrippable])
  | Ifd8 v => exact absurd h (by simp [scalarRoundTrippable])

/-- Witness for C7 (amended) at `Value::Short(300)`. -/
theorem value_scalar_roundtrip_witness :
    ∃ be, buffered_entry_try_from (.Short 300) = some (.ok be)
      ∧ value_try_from be = some (.ok (.Short 300)) :=
  value_scalar_roundtrip (.Short 300) (by norm_num [scalarRoundTrippable])

end Tiff2
